import Mathlib

/-!
# Verification of the krustie router/dispatch core

A shallow embedding, in Lean 4, of the route-trie and dispatch pipeline of the
krustie HTTP framework (`src/router.rs`, `src/router/endpoint.rs`,
`src/request.rs`, `src/response.rs`, `src/server/route_handler.rs`), together
with theorems checking the natural-language specification of that core.

Modelling conventions:
* Rust `HashMap<String, V>` values are modelled as association lists with
  unique keys; `HashMap::insert` replaces the value when the key is present
  and appends otherwise, `HashMap::get` is key lookup.
* `&mut` mutation is modelled by explicit state passing: a function that
  mutates a `Response` in Rust returns the new `Response` here.
* A middleware (Rust trait object `Box<dyn Middleware>`) is modelled by its
  observable behaviour: a function from the request and the current response
  to a `HandlerResult` and the updated response.
* Controllers (Rust `fn(&Request, &mut Response)`) are functions from a
  request and a response to the updated response.
* The `while let Some(m) = ....iter_mut().next()` loops of
  `Router::handle` are not structurally recursive (each iteration re-creates
  the iterator), so they are embedded with an explicit fuel parameter:
  `none` means the fuel ran out, i.e. the loop had not terminated yet.
  A loop result `some r` for some fuel corresponds to actual termination
  with result `r`.
-/

namespace Krustie

/-- HTTP methods, from `request/http_method.rs` (`enum HttpMethod`). -/
inductive HttpMethod where
  | GET
  | POST
  | PUT
  | PATCH
  | DELETE
deriving DecidableEq, Repr

/-- Status codes, from `response/status_code.rs` (the exhaustive match of
`StatusCode::get_message` lists the enum's variants). -/
inductive StatusCode where
  | Ok
  | Created
  | Accepted
  | NoContent
  | BadRequest
  | Unauthorized
  | Forbidden
  | NotFound
  | MethodNotAllowed
  | RequestTimeout
  | LengthRequired
  | UnsupportedMediaType
  | IAmATeapot
  | InternalServerError
  | NotImplemented
  | ServiceUnavailable
  | GatewayTimeout
  | HttpVersionNotSupported
deriving DecidableEq, Repr

/-- Result of a handler, from `server/route_handler.rs` (`enum HandlerResult`):
`End` stops the handler chain, `Next` continues it. -/
inductive HandlerResult where
  | End
  | Next
deriving DecidableEq, Repr

/-- The response accumulator, from `response.rs` (`struct Response`).
Bytes (`Vec<u8>`) are modelled as `List Nat`. -/
structure Response where
  debug_mode : Bool
  http_version : String
  status_code : StatusCode
  headers : List (String × String)
  body : List Nat

/-- `Response::status`: sets the status code of the response
(`self.status_code = status_code`). -/
def Response.status (res : Response) (status_code : StatusCode) : Response :=
  { res with status_code := status_code }

/-- A JSON value (external collaborator `serde_json::Value`, re-exported as
`JsonValue` by `json.rs`); numbers abstracted as integers since the router
never inspects a body. -/
inductive JsonValue where
  | null
  | bool (b : Bool)
  | num (n : Int)
  | str (s : String)
  | arr (elems : List JsonValue)
  | obj (fields : List (String × JsonValue))

/-- Request bodies, from `request/body.rs` (`enum RequestBody`). -/
inductive RequestBody where
  | Binary (bytes : List Nat)
  | Text (text : String)
  | Json (value : JsonValue)
  | None

/-- A socket address (external collaborator `std::net::SocketAddr`),
modelled as ip octets plus port. -/
structure SocketAddr where
  ip : List Nat
  port : Nat

/-- The request line, from `request/request_line.rs` (`struct RequestLine`).
`path_array` caches `uri_parser(uri)`. -/
structure RequestLine where
  method : HttpMethod
  uri : String
  version : String
  path_array : List String

/-- The parsed request, from `request.rs` (`struct Request`). -/
structure Request where
  request : RequestLine
  headers : List (String × String)
  queries : List (String × String)
  params : List (String × String)
  body : RequestBody
  peer_addr : SocketAddr

/-- `Request::get_path_array`. -/
def Request.get_path_array (r : Request) : List String :=
  r.request.path_array

/-- `Request::get_method`. -/
def Request.get_method (r : Request) : HttpMethod :=
  r.request.method

/-- `Request::add_param`: `self.params = params` (the params slot is
replaced, not merged). -/
def Request.add_param (r : Request) (params : List (String × String)) : Request :=
  { r with params := params }

/-- A middleware instance (`Box<dyn Middleware>` with
`fn middleware(&mut self, &Request, &mut Response) -> HandlerResult`),
modelled by its observable behaviour on a request and response. -/
def Middleware : Type :=
  Request → Response → HandlerResult × Response

/-- A controller function, from `router.rs`
(`type Controller = fn(&Request, &mut Response)`). -/
def Controller : Type :=
  Request → Response → Response

/-- An endpoint, from `router/endpoint.rs` (`struct Endpoint`). -/
structure Endpoint where
  method : HttpMethod
  controller : Controller
  middlewares : List Middleware

/-- `Endpoint::new`. -/
def Endpoint.new (method : HttpMethod) (controller : Controller) : Endpoint :=
  { method := method, controller := controller, middlewares := [] }

/-- `Endpoint::is_method`: `self.method == *method`. -/
def Endpoint.is_method (e : Endpoint) (method : HttpMethod) : Bool :=
  decide (e.method = method)

/-- The route-trie node, from `router.rs` (`struct Router`): endpoints stored
at this depth, router-scoped middlewares, literal children (`subdirs:
HashMap<String, Box<Router>>`, as an assoc list with unique keys), and at
most one parameter child. -/
inductive Router where
  | mk (endpoints : List Endpoint) (middlewares : List Middleware)
      (subdirs : List (String × Router)) (param_dir : Option (String × Router))

/-- Field `Router.endpoints`. -/
def Router.endpoints : Router → List Endpoint
  | .mk endpoints _ _ _ => endpoints

/-- Field `Router.middlewares`. -/
def Router.middlewares : Router → List Middleware
  | .mk _ middlewares _ _ => middlewares

/-- Field `Router.subdirs`. -/
def Router.subdirs : Router → List (String × Router)
  | .mk _ _ subdirs _ => subdirs

/-- Field `Router.param_dir`. -/
def Router.param_dir : Router → Option (String × Router)
  | .mk _ _ _ param_dir => param_dir

/-- `Router::new`: all fields empty. -/
def Router.new : Router :=
  .mk [] [] [] none

/-- `self.endpoints.push(endpoint)` on a router. -/
def Router.pushEndpoint : Router → Endpoint → Router
  | .mk endpoints middlewares subdirs param_dir, e =>
      .mk (endpoints ++ [e]) middlewares subdirs param_dir

/-- Replace the `subdirs` field of a router. -/
def Router.withSubdirs : Router → List (String × Router) → Router
  | .mk endpoints middlewares _ param_dir, subdirs =>
      .mk endpoints middlewares subdirs param_dir

/-- Replace the `param_dir` field of a router. -/
def Router.withParamDir : Router → Option (String × Router) → Router
  | .mk endpoints middlewares subdirs _, param_dir =>
      .mk endpoints middlewares subdirs param_dir

/-- `HashMap::get` / `get_mut` on `subdirs`: lookup by key. -/
def getSubdir : List (String × Router) → String → Option Router
  | [], _ => none
  | (k, r) :: rest, key => if k = key then some r else getSubdir rest key

/-- `HashMap::insert` on `subdirs`: replace the value if the key is present,
append otherwise (also used to write back an in-place mutation of the child
found by `get_mut`). -/
def setSubdir : List (String × Router) → String → Router → List (String × Router)
  | [], key, v => [(key, v)]
  | (k, r) :: rest, key, v =>
      if k = key then (key, v) :: rest else (k, r) :: setSubdir rest key v

/-- `HashMap::insert` on the parameter-bindings map (`params.insert(name,
value)`): replace if present, append otherwise. -/
def insertParam : List (String × String) → String → String → List (String × String)
  | [], key, v => [(key, v)]
  | (k, w) :: rest, key, v =>
      if k = key then (key, v) :: rest else (k, w) :: insertParam rest key v

/-- Path-pattern segments, from `router.rs` (`enum PathType`): a literal
subdirectory name or a `:name` parameter. -/
inductive PathType where
  | Subdirectory (name : String)
  | Parameter (name : String)
deriving DecidableEq, Repr

/-- The literal-segment syntax check of `PathType::try_from`: the segment
must match `^[a-zA-Z0-9_\-.]+$`. -/
def PathType.isValidLiteral (s : String) : Prop :=
  s ≠ "" ∧ ∀ c ∈ s.data, (c.isAlphanum = true ∨ c = '_' ∨ c = '-' ∨ c = '.')

instance (s : String) : Decidable (PathType.isValidLiteral s) := by
  unfold PathType.isValidLiteral
  infer_instance

/-- The query-suffix stripping step of `Router::handle_routes`
(`route.split('?').collect::<Vec<&str>>().first().unwrap()`): the prefix of
the segment before its first `'?'`, i.e. the first component of the split. -/
def stripQuery (s : String) : String :=
  String.mk (s.data.takeWhile fun c => c ≠ '?')

/-- `Router::handle_routes` (`router.rs`, lines 262-307): recursive trie
lookup. Consumes one path segment per level; strips a query suffix from the
segment; skips segments that are (then) empty; prefers the literal child
and falls back to the parameter child, binding the segment value under the
stored parameter name; at the end of the path, finds the first endpoint of
the node whose method matches. -/
def handle_routes :
    Router → HttpMethod → List (String × String) → List String →
      Option (Endpoint × List (String × String))
  | router, method, params, [] =>
      match router.endpoints.find? (fun e => e.is_method method) with
      | some e => some (e, params)
      | none => none
  | router, method, params, seg :: rest =>
      -- `route` is computed once in the Rust source; inlined here.
      if stripQuery seg = "" then
        handle_routes router method params rest
      else
        match getSubdir router.subdirs (stripQuery seg) with
        | some founded_router => handle_routes founded_router method params rest
        | none =>
            match router.param_dir with
            | some (param_name, founded_router) =>
                handle_routes founded_router method
                  (insertParam params param_name (stripQuery seg)) rest
            | none => none

/-- `Router::route_handler`: lookup starting from an empty bindings map over
the request's path array. -/
def route_handler (router : Router) (path_array : List String) (method : HttpMethod) :
    Option (Endpoint × List (String × String)) :=
  handle_routes router method [] path_array

/-- `Router::add_endpoint` (`router.rs`, lines 177-249). The `Except` error
models the `panic!` of the `None` arm (reached only when called with an
empty segment iterator). Note: at an existing parameter child the new
parameter name is ignored (the stored name is kept), and at the final node
the endpoint is pushed with no duplicate-method check. -/
def add_endpoint : Router → Endpoint → List PathType → Except String Router
  | _, _, [] => .error "Error: Route already exist."
  | router, endpoint, .Subdirectory path :: rest =>
      if rest.isEmpty then
        -- Iteration Will End
        match getSubdir router.subdirs path with
        | some found_router =>
            .ok (router.withSubdirs
              (setSubdir router.subdirs path (found_router.pushEndpoint endpoint)))
        | none =>
            .ok (router.withSubdirs
              (setSubdir router.subdirs path (Router.new.pushEndpoint endpoint)))
      else
        -- Iteration Will Continue
        match getSubdir router.subdirs path with
        | some found_router => do
            let found_router ← add_endpoint found_router endpoint rest
            .ok (router.withSubdirs (setSubdir router.subdirs path found_router))
        | none => do
            let inserted_router ← add_endpoint Router.new endpoint rest
            .ok (router.withSubdirs (setSubdir router.subdirs path inserted_router))
  | router, endpoint, .Parameter param :: rest =>
      if rest.isEmpty then
        -- Iteration Will End
        match router.param_dir with
        | some (found_name, found_router) =>
            .ok (router.withParamDir (some (found_name, found_router.pushEndpoint endpoint)))
        | none =>
            .ok (router.withParamDir (some (param, Router.new.pushEndpoint endpoint)))
      else
        -- Iteration Will Continue
        match router.param_dir with
        | some (found_name, found_router) => do
            let found_router ← add_endpoint found_router endpoint rest
            .ok (router.withParamDir (some (found_name, found_router)))
        | none => do
            let inserted_router ← add_endpoint Router.new endpoint rest
            .ok (router.withParamDir (some (param, inserted_router)))

/-- `Router::use_endpoint` after path parsing: for the root path (`"/"` or
empty, which parse to no segments) the endpoint is pushed directly into the
root node; otherwise `add_endpoint` descends along the parsed segments. -/
def use_endpoint (router : Router) (segments : List PathType) (endpoint : Endpoint) :
    Except String Router :=
  if segments.isEmpty then .ok (router.pushEndpoint endpoint)
  else add_endpoint router endpoint segments

/-- How one of the two middleware `while let` loops of `Router::handle`
exits: `ended` models `return HandlerResult::End` out of `handle`, `fell`
models the loop condition turning false (empty middleware list). -/
inductive LoopExit where
  | ended (res : Response)
  | fell (res : Response)

/-- The middleware loop of `Router::handle` (`router.rs`, lines 323-330 and
334-341): `while let Some(middleware) = middlewares.iter_mut().next()`.
Each iteration re-creates the iterator, so it examines the FIRST element of
the (unchanged) middleware list every time; `fuel` bounds the number of
iterations, `none` meaning the loop had not terminated within the fuel. -/
def middlewareLoop (mws : List Middleware) (request : Request) :
    Nat → Response → Option LoopExit
  | 0, _ => none
  | fuel + 1, response =>
      match mws.head? with
      | none => some (.fell response)
      | some middleware =>
          match middleware request response with
          | (.End, response) => some (.ended response)
          | (.Next, response) => middlewareLoop mws request fuel response

/-- `<Router as RouteHandler>::handle` (`router.rs`, lines 322-354), fueled
because of the two non-advancing middleware loops. The result carries the
`HandlerResult`, the final response, and the list of controller invocations
(controller together with the request value it was given), so that theorems
can speak about which controller ran and on which request. -/
def Router.handle (fuel : Nat) (router : Router) (request : Request) (response : Response) :
    Option (HandlerResult × Response × List (Controller × Request)) :=
  match middlewareLoop router.middlewares request fuel response with
  | none => none
  | some (.ended response) => some (.End, response, [])
  | some (.fell response) =>
      match route_handler router request.get_path_array request.get_method with
      | some (endpoint, params) =>
          match middlewareLoop endpoint.middlewares request fuel response with
          | none => none
          | some (.ended response) => some (.End, response, [])
          | some (.fell response) =>
              -- let mut request = request.clone(); request.add_param(params);
              let bound_request := request.add_param params
              some (.Next, endpoint.controller bound_request response,
                [(endpoint.controller, bound_request)])
      | none => some (.Next, response.status .NotFound, [])

/-- Modelled from the spec: the Middleware Chain Runner of §4.4
(`run_chain(middlewares, request, response)`), which iterates the
middlewares in registration order and stops at the first `End`. Used as the
reference point when the code's loop diverges from the spec. -/
def run_chain_spec : List Middleware → Request → Response → HandlerResult × Response
  | [], _, response => (.Next, response)
  | middleware :: rest, request, response =>
      match middleware request response with
      | (.End, response) => (.End, response)
      | (.Next, response) => run_chain_spec rest request response

/-! ## Proof-side helper functions

Reformulations used to state and prove properties of the trie; each is
related to the source-derived functions by a proven lemma. -/

/-- Follow only literal children along a path of segment names; `some` is
the trie node reached. -/
def nodeAtLit : Router → List String → Option Router
  | router, [] => some router
  | router, seg :: rest =>
      match getSubdir router.subdirs seg with
      | some child => nodeAtLit child rest
      | none => none

/-- The endpoint list stored at the trie node reached by a literal path
(empty when the node does not exist). -/
def endpointsAtLit (router : Router) (path : List String) : List Endpoint :=
  match nodeAtLit router path with
  | some node => node.endpoints
  | none => []

/-- Total reformulation of `use_endpoint` for literal-only paths: push at the
root for the empty path, otherwise descend into (or create) the literal
child chain and push at its end. Proven to agree with `use_endpoint`. -/
def insertLit : Router → List String → Endpoint → Router
  | router, [], e => router.pushEndpoint e
  | router, seg :: rest, e =>
      let child := (getSubdir router.subdirs seg).getD Router.new
      router.withSubdirs (setSubdir router.subdirs seg (insertLit child rest e))

/-- A single route registration: method, literal-only path (as segment
names), controller. -/
structure Registration where
  method : HttpMethod
  path : List String
  controller : Controller

/-- The endpoint built by a registration (`Endpoint::new(method, controller)`). -/
def Registration.endpoint (reg : Registration) : Endpoint :=
  Endpoint.new reg.method reg.controller

/-- Register a list of literal-only routes in order on a router, via
`use_endpoint`. -/
def registerAll (router : Router) (regs : List Registration) : Except String Router :=
  match regs with
  | [] => .ok router
  | reg :: rest => do
      let router ← use_endpoint router (reg.path.map PathType.Subdirectory) reg.endpoint
      registerAll router rest

/-- Fold-version of `registerAll` on the total insertion function. -/
def insertAllLit (router : Router) (regs : List Registration) : Router :=
  regs.foldl (fun r reg => insertLit r reg.path reg.endpoint) router

/-! ## Basic lemmas about the embedded structures -/

@[simp]
theorem Router.endpoints_mk (es ms sd pd) : (Router.mk es ms sd pd).endpoints = es := rfl

@[simp]
theorem Router.middlewares_mk (es ms sd pd) : (Router.mk es ms sd pd).middlewares = ms := rfl

@[simp]
theorem Router.subdirs_mk (es ms sd pd) : (Router.mk es ms sd pd).subdirs = sd := rfl

@[simp]
theorem Router.param_dir_mk (es ms sd pd) : (Router.mk es ms sd pd).param_dir = pd := rfl

@[simp]
theorem Router.endpoints_withSubdirs (r : Router) (l) :
    (r.withSubdirs l).endpoints = r.endpoints := by cases r; rfl

@[simp]
theorem Router.subdirs_withSubdirs (r : Router) (l) :
    (r.withSubdirs l).subdirs = l := by cases r; rfl

@[simp]
theorem Router.param_dir_withSubdirs (r : Router) (l) :
    (r.withSubdirs l).param_dir = r.param_dir := by cases r; rfl

@[simp]
theorem Router.middlewares_withSubdirs (r : Router) (l) :
    (r.withSubdirs l).middlewares = r.middlewares := by cases r; rfl

@[simp]
theorem Router.endpoints_withParamDir (r : Router) (pd) :
    (r.withParamDir pd).endpoints = r.endpoints := by cases r; rfl

@[simp]
theorem Router.subdirs_withParamDir (r : Router) (pd) :
    (r.withParamDir pd).subdirs = r.subdirs := by cases r; rfl

@[simp]
theorem Router.param_dir_withParamDir (r : Router) (pd) :
    (r.withParamDir pd).param_dir = pd := by cases r; rfl

@[simp]
theorem Router.endpoints_pushEndpoint (r : Router) (e) :
    (r.pushEndpoint e).endpoints = r.endpoints ++ [e] := by cases r; rfl

@[simp]
theorem Router.subdirs_pushEndpoint (r : Router) (e) :
    (r.pushEndpoint e).subdirs = r.subdirs := by cases r; rfl

@[simp]
theorem Router.param_dir_pushEndpoint (r : Router) (e) :
    (r.pushEndpoint e).param_dir = r.param_dir := by cases r; rfl

@[simp]
theorem getSubdir_setSubdir_self (l : List (String × Router)) (k : String) (v : Router) :
    getSubdir (setSubdir l k v) k = some v := by
  induction l with
  | nil => simp [setSubdir, getSubdir]
  | cons kv rest ih =>
      obtain ⟨k', r'⟩ := kv
      by_cases h : k' = k
      · simp [setSubdir, getSubdir, h]
      · simp [setSubdir, getSubdir, h, ih]

theorem getSubdir_setSubdir_ne (l : List (String × Router)) (k key : String) (v : Router)
    (h : key ≠ k) : getSubdir (setSubdir l k v) key = getSubdir l key := by
  have hk : ¬(k = key) := fun hh => h hh.symm
  induction l with
  | nil => simp [setSubdir, getSubdir, hk]
  | cons kv rest ih =>
      obtain ⟨k', r'⟩ := kv
      by_cases h' : k' = k
      · subst h'
        simp [setSubdir, getSubdir, hk]
      · by_cases h'' : k' = key <;> simp [setSubdir, getSubdir, h', h'', h, ih]

theorem insertParam_mem {l : List (String × String)} {key v : String} {kv : String × String}
    (h : kv ∈ insertParam l key v) : kv ∈ l ∨ kv = (key, v) := by
  induction l with
  | nil => simpa [insertParam] using h
  | cons kw rest ih =>
      obtain ⟨k', w'⟩ := kw
      by_cases hk : k' = key
      · simp only [insertParam, if_pos hk] at h
        rcases List.mem_cons.mp h with h1 | h1
        · right; exact h1
        · left; exact List.mem_cons_of_mem _ h1
      · simp only [insertParam, if_neg hk] at h
        rcases List.mem_cons.mp h with h1 | h1
        · left; rw [h1]; exact List.mem_cons_self _ _
        · rcases ih h1 with h2 | h2
          · left; exact List.mem_cons_of_mem _ h2
          · right; exact h2

/-! ## Lemmas about query stripping -/

theorem takeWhile_eq_self_of_all {p : Char → Bool} {l : List Char}
    (h : ∀ c ∈ l, p c = true) : l.takeWhile p = l := by
  induction l with
  | nil => rfl
  | cons c rest ih =>
      rw [List.takeWhile_cons, h c (List.mem_cons_self _ _)]
      exact congrArg (c :: ·) (ih fun x hx => h x (List.mem_cons_of_mem _ hx))

theorem mem_takeWhile_pred {p : Char → Bool} {l : List Char} {c : Char}
    (h : c ∈ l.takeWhile p) : p c = true := by
  induction l with
  | nil => simp [List.takeWhile] at h
  | cons d rest ih =>
      rw [List.takeWhile_cons] at h
      by_cases hd : p d = true
      · rw [if_pos hd] at h
        rcases List.mem_cons.mp h with h' | h'
        · exact h' ▸ hd
        · exact ih h'
      · rw [if_neg hd] at h
        exact absurd h (List.not_mem_nil c)

theorem stripQuery_eq_self {s : String} (h : ∀ c ∈ s.data, c ≠ '?') : stripQuery s = s := by
  unfold stripQuery
  have : s.data.takeWhile (fun c => c ≠ '?') = s.data :=
    takeWhile_eq_self_of_all fun c hc => by simpa using h c hc
  rw [this]

theorem stripQuery_no_query (s : String) : ∀ c ∈ (stripQuery s).data, c ≠ '?' := by
  intro c hc
  have := mem_takeWhile_pred (p := fun c => c ≠ '?') (l := s.data) hc
  simpa using this

theorem stripQuery_idem (s : String) : stripQuery (stripQuery s) = stripQuery s :=
  stripQuery_eq_self (stripQuery_no_query s)

theorem isValidLiteral_no_query {s : String} (h : PathType.isValidLiteral s) :
    ∀ c ∈ s.data, c ≠ '?' := by
  intro c hc heq
  rcases h.2 c hc with h' | h' | h' | h' <;> rw [heq] at h' <;> exact absurd h' (by decide)

theorem stripQuery_of_valid {s : String} (h : PathType.isValidLiteral s) : stripQuery s = s :=
  stripQuery_eq_self (isValidLiteral_no_query h)

/-! ## Lemmas about `find?` -/

theorem find?_append_some {α} {p : α → Bool} {l l' : List α} {x : α}
    (h : l.find? p = some x) : (l ++ l').find? p = some x := by
  induction l with
  | nil => simp [List.find?] at h
  | cons a rest ih =>
      by_cases ha : p a = true
      · rw [List.find?_cons_of_pos _ ha] at h
        simpa [List.find?_cons_of_pos _ ha] using h
      · rw [List.find?_cons_of_neg _ (by simpa using ha)] at h
        simpa [List.find?_cons_of_neg _ (by simpa using ha)] using ih h

theorem find?_eq_of_unique {α} {p : α → Bool} {l : List α} {x : α}
    (hx : x ∈ l) (hpx : p x = true) (huniq : ∀ y ∈ l, p y = true → y = x) :
    l.find? p = some x := by
  induction l with
  | nil => exact absurd hx (List.not_mem_nil x)
  | cons a rest ih =>
      by_cases ha : p a = true
      · rw [List.find?_cons_of_pos _ ha, huniq a (List.mem_cons_self _ _) ha]
      · rw [List.find?_cons_of_neg _ (by simpa using ha)]
        rcases List.mem_cons.mp hx with h | h
        · exact absurd (h ▸ hpx) (by simpa using ha)
        · exact ih h fun y hy => huniq y (List.mem_cons_of_mem _ hy)

/-! ## Registration: `use_endpoint` agrees with the total `insertLit` on
literal-only paths -/

theorem add_endpoint_lit (rest : List String) (seg : String) (r : Router) (e : Endpoint) :
    add_endpoint r e ((seg :: rest).map PathType.Subdirectory) =
      .ok (insertLit r (seg :: rest) e) := by
  induction rest generalizing seg r with
  | nil =>
      cases h : getSubdir r.subdirs seg <;>
        simp [add_endpoint, insertLit, h, Option.getD]
  | cons seg' rest' ih =>
      have hmap : List.map PathType.Subdirectory (seg :: seg' :: rest') =
          .Subdirectory seg :: List.map PathType.Subdirectory (seg' :: rest') := rfl
      rw [hmap, add_endpoint, if_neg (by simp)]
      cases h : getSubdir r.subdirs seg with
      | some c =>
          have ih' : add_endpoint c e
              (PathType.Subdirectory seg' :: List.map PathType.Subdirectory rest') =
              Except.ok (insertLit c (seg' :: rest') e) := ih seg' c
          simp [insertLit, h, Option.getD, ih', Except.bind]
          rfl
      | none =>
          have ih' : add_endpoint Router.new e
              (PathType.Subdirectory seg' :: List.map PathType.Subdirectory rest') =
              Except.ok (insertLit Router.new (seg' :: rest') e) := ih seg' Router.new
          simp [insertLit, h, Option.getD, ih', Except.bind]
          rfl

theorem use_endpoint_eq_insertLit (r : Router) (p : List String) (e : Endpoint) :
    use_endpoint r (p.map PathType.Subdirectory) e = .ok (insertLit r p e) := by
  cases p with
  | nil => rfl
  | cons seg rest =>
      rw [use_endpoint, if_neg (by simp)]
      exact add_endpoint_lit rest seg r e

theorem registerAll_eq_insertAllLit (regs : List Registration) (r : Router) :
    registerAll r regs = .ok (insertAllLit r regs) := by
  induction regs generalizing r with
  | nil => rfl
  | cons reg rest ih =>
      rw [registerAll]
      show (use_endpoint r (reg.path.map PathType.Subdirectory) reg.endpoint) >>= _ = _
      rw [use_endpoint_eq_insertLit]
      show registerAll (insertLit r reg.path reg.endpoint) rest = _
      rw [ih]
      rfl

/-! ## The literal trie chain: node and endpoint accumulation -/

@[simp]
theorem endpointsAtLit_nil (r : Router) : endpointsAtLit r [] = r.endpoints := rfl

theorem endpointsAtLit_cons_some {r c : Router} {seg : String} (rest : List String)
    (h : getSubdir r.subdirs seg = some c) :
    endpointsAtLit r (seg :: rest) = endpointsAtLit c rest := by
  simp [endpointsAtLit, nodeAtLit, h]

theorem endpointsAtLit_cons_none {r : Router} {seg : String} (rest : List String)
    (h : getSubdir r.subdirs seg = none) :
    endpointsAtLit r (seg :: rest) = [] := by
  simp [endpointsAtLit, nodeAtLit, h]

theorem endpointsAtLit_new (p : List String) : endpointsAtLit Router.new p = [] := by
  cases p with
  | nil => rfl
  | cons seg rest => exact endpointsAtLit_cons_none rest rfl

/-- Inserting a literal route makes the node at its path exist, and appends
exactly the new endpoint to whatever endpoints that path previously held. -/
theorem nodeAtLit_insertLit_self (p : List String) (r : Router) (e : Endpoint) :
    (nodeAtLit (insertLit r p e) p).map Router.endpoints =
      some (endpointsAtLit r p ++ [e]) := by
  induction p generalizing r with
  | nil => simp [insertLit, nodeAtLit]
  | cons seg rest ih =>
      cases h : getSubdir r.subdirs seg with
      | some c =>
          rw [endpointsAtLit_cons_some rest h]
          simpa [insertLit, nodeAtLit, h, Option.getD, getSubdir_setSubdir_self] using ih c
      | none =>
          rw [endpointsAtLit_cons_none rest h]
          have := ih Router.new
          rw [endpointsAtLit_new] at this
          simpa [insertLit, nodeAtLit, h, Option.getD, getSubdir_setSubdir_self] using this

theorem endpointsAtLit_insertLit_self (p : List String) (r : Router) (e : Endpoint) :
    endpointsAtLit (insertLit r p e) p = endpointsAtLit r p ++ [e] := by
  have h := nodeAtLit_insertLit_self p r e
  unfold endpointsAtLit
  cases hn : nodeAtLit (insertLit r p e) p with
  | none => rw [hn] at h; exact absurd h (by simp)
  | some node => rw [hn] at h; simpa using h

/-- Inserting a literal route at one path leaves the endpoints stored at any
other literal path unchanged. -/
theorem endpointsAtLit_insertLit_ne (p : List String) (r : Router) (e : Endpoint)
    (q : List String) (hne : p ≠ q) :
    endpointsAtLit (insertLit r p e) q = endpointsAtLit r q := by
  induction p generalizing r q with
  | nil =>
      cases q with
      | nil => exact absurd rfl hne
      | cons t qrest =>
          cases h : getSubdir r.subdirs t with
          | some c =>
              rw [endpointsAtLit_cons_some qrest h,
                endpointsAtLit_cons_some qrest (c := c) (by simpa [insertLit] using h)]
          | none =>
              rw [endpointsAtLit_cons_none qrest h,
                endpointsAtLit_cons_none qrest (by simpa [insertLit] using h)]
  | cons seg rest ih =>
      cases q with
      | nil => simp [insertLit, endpointsAtLit, nodeAtLit]
      | cons t qrest =>
          by_cases hst : seg = t
          · subst hst
            have hrest : rest ≠ qrest := fun hh => hne (by rw [hh])
            cases h : getSubdir r.subdirs seg with
            | some c =>
                rw [endpointsAtLit_cons_some qrest h]
                rw [endpointsAtLit_cons_some qrest (c := insertLit c rest e)
                  (by simp [insertLit, h, Option.getD, getSubdir_setSubdir_self])]
                exact ih c qrest hrest
            | none =>
                rw [endpointsAtLit_cons_none qrest h]
                rw [endpointsAtLit_cons_some qrest (c := insertLit Router.new rest e)
                  (by simp [insertLit, h, Option.getD, getSubdir_setSubdir_self])]
                rw [ih Router.new qrest hrest]
                exact endpointsAtLit_new qrest
          · have hget : getSubdir (insertLit r (seg :: rest) e).subdirs t =
                getSubdir r.subdirs t := by
              simp only [insertLit, Router.subdirs_withSubdirs]
              exact getSubdir_setSubdir_ne _ seg t _ fun hh => hst hh.symm
            cases h : getSubdir r.subdirs t with
            | some c =>
                rw [endpointsAtLit_cons_some qrest h,
                  endpointsAtLit_cons_some qrest (c := c) (hget.trans h)]
            | none =>
                rw [endpointsAtLit_cons_none qrest h,
                  endpointsAtLit_cons_none qrest (hget.trans h)]

/-- The endpoints accumulated at a literal path by a sequence of
registrations: the initial endpoints followed by the endpoints of exactly
the registrations for that path, in registration order. -/
theorem endpointsAtLit_insertAllLit (regs : List Registration) (r : Router) (q : List String) :
    endpointsAtLit (insertAllLit r regs) q =
      endpointsAtLit r q ++
        (regs.filter (fun reg => decide (reg.path = q))).map Registration.endpoint := by
  induction regs generalizing r with
  | nil => simp [insertAllLit]
  | cons reg rest ih =>
      have hstep : insertAllLit r (reg :: rest) =
          insertAllLit (insertLit r reg.path reg.endpoint) rest := rfl
      rw [hstep, ih]
      by_cases hpq : reg.path = q
      · subst hpq
        rw [endpointsAtLit_insertLit_self]
        simp [List.filter]
      · rw [endpointsAtLit_insertLit_ne _ _ _ _ hpq]
        simp [List.filter, hpq]

theorem nodeAtLit_pushEndpoint_cons (r : Router) (e : Endpoint) (t : String)
    (q : List String) : nodeAtLit (r.pushEndpoint e) (t :: q) = nodeAtLit r (t :: q) := by
  simp [nodeAtLit]

/-- Inserting a route never removes an existing literal trie node. -/
theorem nodeAtLit_insertLit_mono (p : List String) (r : Router) (e : Endpoint)
    (q : List String) (h : (nodeAtLit r q).isSome) :
    (nodeAtLit (insertLit r p e) q).isSome := by
  induction p generalizing r q with
  | nil =>
      cases q with
      | nil => simp [nodeAtLit]
      | cons t qrest => rw [insertLit, nodeAtLit_pushEndpoint_cons]; exact h
  | cons seg rest ih =>
      cases q with
      | nil => simp [nodeAtLit]
      | cons t qrest =>
          by_cases hst : seg = t
          · subst hst
            rw [nodeAtLit] at h
            cases hg : getSubdir r.subdirs seg with
            | none => rw [hg] at h; simp at h
            | some c =>
                rw [hg] at h
                have : nodeAtLit (insertLit r (seg :: rest) e) (seg :: qrest) =
                    nodeAtLit (insertLit c rest e) qrest := by
                  simp [insertLit, nodeAtLit, hg, Option.getD, getSubdir_setSubdir_self]
                rw [this]
                exact ih c qrest h
          · have hget : getSubdir (insertLit r (seg :: rest) e).subdirs t =
                getSubdir r.subdirs t := by
              simp only [insertLit, Router.subdirs_withSubdirs]
              exact getSubdir_setSubdir_ne _ seg t _ fun hh => hst hh.symm
            rw [nodeAtLit] at h ⊢
            rw [hget]
            exact h

theorem nodeAtLit_insertAllLit_mono (regs : List Registration) (r : Router)
    (q : List String) (h : (nodeAtLit r q).isSome) :
    (nodeAtLit (insertAllLit r regs) q).isSome := by
  induction regs generalizing r with
  | nil => exact h
  | cons reg rest ih => exact ih _ (nodeAtLit_insertLit_mono reg.path r reg.endpoint q h)

/-- After registering a route, the literal trie node at its path exists. -/
theorem nodeAtLit_insertAllLit_isSome (regs : List Registration) (r : Router)
    (reg : Registration) (hmem : reg ∈ regs) :
    (nodeAtLit (insertAllLit r regs) reg.path).isSome := by
  induction regs generalizing r with
  | nil => exact absurd hmem (List.not_mem_nil reg)
  | cons reg' rest ih =>
      have hstep : insertAllLit r (reg' :: rest) =
          insertAllLit (insertLit r reg'.path reg'.endpoint) rest := rfl
      rw [hstep]
      rcases List.mem_cons.mp hmem with h | h
      · subst h
        have hself : (nodeAtLit (insertLit r reg.path reg.endpoint) reg.path).isSome := by
          have := nodeAtLit_insertLit_self reg.path r reg.endpoint
          cases hn : nodeAtLit (insertLit r reg.path reg.endpoint) reg.path with
          | none => rw [hn] at this; exact absurd this (by simp)
          | some node => simp
        exact nodeAtLit_insertAllLit_mono rest _ reg.path hself
      · exact ih _ h

/-! ## Lookup along an existing literal chain -/

/-- When every segment of the path is a syntactically valid literal and the
literal node chain exists, `handle_routes` walks exactly the literal chain,
binds nothing, and resolves to the first endpoint of the final node whose
method matches (or fails when there is none). -/
theorem handle_routes_lit (p : List String) (hv : ∀ s ∈ p, PathType.isValidLiteral s)
    (r n : Router) (hn : nodeAtLit r p = some n) (m : HttpMethod)
    (params : List (String × String)) :
    handle_routes r m params p =
      (n.endpoints.find? (fun e => e.is_method m)).map (fun e => (e, params)) := by
  induction p generalizing r with
  | nil =>
      rw [nodeAtLit] at hn
      cases hn
      rw [handle_routes]
      cases hf : n.endpoints.find? (fun e => e.is_method m) <;> simp [hf]
  | cons seg rest ih =>
      have hvseg := hv seg (List.mem_cons_self _ _)
      have hstrip : stripQuery seg = seg := stripQuery_of_valid hvseg
      rw [nodeAtLit] at hn
      cases hg : getSubdir r.subdirs seg with
      | none => rw [hg] at hn; exact absurd hn (by simp)
      | some c =>
          rw [hg] at hn
          rw [handle_routes]
          simp only [hstrip, hg, if_neg hvseg.1]
          exact ih (fun s hs => hv s (List.mem_cons_of_mem _ hs)) c hn

/-! ## Claim C5 -/

/-- C5: for any finite sequence of registrations (method, literal-only path,
controller) with pairwise distinct (method, path) pairs inserted into a
single router, looking up each registered path with its registered method
returns exactly the endpoint made of the controller registered for that
pair, with empty parameter bindings. -/
theorem C5_registration_lookup_roundtrip
    (regs : List Registration)
    (hvalid : ∀ reg ∈ regs, ∀ s ∈ reg.path, PathType.isValidLiteral s)
    (hdist : regs.Pairwise (fun a b => (a.method, a.path) ≠ (b.method, b.path)))
    (router : Router) (hreg : registerAll Router.new regs = .ok router)
    (reg : Registration) (hmem : reg ∈ regs) :
    route_handler router reg.path reg.method = some (reg.endpoint, []) := by
  rw [registerAll_eq_insertAllLit] at hreg
  have hrouter : insertAllLit Router.new regs = router := by
    injection hreg
  subst hrouter
  have hsome := nodeAtLit_insertAllLit_isSome regs Router.new reg hmem
  obtain ⟨n, hn⟩ := Option.isSome_iff_exists.mp hsome
  have hv := hvalid reg hmem
  rw [route_handler, handle_routes_lit reg.path hv _ n hn reg.method []]
  have hend : n.endpoints =
      (regs.filter (fun rg => decide (rg.path = reg.path))).map Registration.endpoint := by
    have hacc := endpointsAtLit_insertAllLit regs Router.new reg.path
    rw [endpointsAtLit_new] at hacc
    have hunf : endpointsAtLit (insertAllLit Router.new regs) reg.path = n.endpoints := by
      simp [endpointsAtLit, hn]
    rw [hunf] at hacc
    simpa using hacc
  rw [hend]
  have hfind : ((regs.filter fun rg => decide (rg.path = reg.path)).map
      Registration.endpoint).find? (fun e => e.is_method reg.method) = some reg.endpoint := by
    apply find?_eq_of_unique
    · exact List.mem_map_of_mem _ (List.mem_filter.mpr ⟨hmem, by simp⟩)
    · simp [Registration.endpoint, Endpoint.new, Endpoint.is_method]
    · intro y hy hpy
      obtain ⟨rg, hrgmem, hrgeq⟩ := List.mem_map.mp hy
      have hrgfilter := List.mem_filter.mp hrgmem
      have hpath : rg.path = reg.path := by simpa using hrgfilter.2
      have hmethod : rg.method = reg.method := by
        rw [← hrgeq] at hpy
        simpa [Registration.endpoint, Endpoint.new, Endpoint.is_method] using hpy
      have hrg : rg = reg := by
        by_contra hne
        have hsymm : Symmetric
            (fun a b : Registration => (a.method, a.path) ≠ (b.method, b.path)) :=
          fun a b hab hh => hab hh.symm
        exact List.Pairwise.forall hsymm hdist hrgfilter.1 hmem hne (by rw [hmethod, hpath])
      rw [← hrgeq, hrg]
  rw [hfind]
  rfl

/-- Controller used by the C5 witness (sets 200). -/
def c5a : Controller := fun _ res => res.status .Ok

/-- Controller used by the C5 witness (sets 201). -/
def c5b : Controller := fun _ res => res.status .Created

/-- Controller used by the C5 witness (sets 202). -/
def c5c : Controller := fun _ res => res.status .Accepted

/-- Controller used by the C5 witness (sets 204). -/
def c5root : Controller := fun _ res => res.status .NoContent

/-- Concrete registration sequence for the C5 witness: distinct
(method, path) pairs, including two methods at one path and the root path. -/
def regs5 : List Registration :=
  [⟨.GET, ["a"], c5a⟩, ⟨.POST, ["a"], c5b⟩, ⟨.GET, ["a", "b"], c5c⟩, ⟨.GET, [], c5root⟩]

/-- Witness for C5 at a concrete registration sequence. -/
theorem C5_registration_lookup_roundtrip_witness :
    (∀ reg ∈ regs5, ∀ s ∈ reg.path, PathType.isValidLiteral s) ∧
    regs5.Pairwise (fun a b => (a.method, a.path) ≠ (b.method, b.path)) ∧
    registerAll Router.new regs5 = .ok (insertAllLit Router.new regs5) ∧
    route_handler (insertAllLit Router.new regs5) ["a", "b"] .GET =
      some (Endpoint.new .GET c5c, []) :=
  ⟨by decide, by decide, registerAll_eq_insertAllLit regs5 Router.new,
    C5_registration_lookup_roundtrip regs5 (by decide) (by decide) _
      (registerAll_eq_insertAllLit regs5 Router.new)
      ⟨.GET, ["a", "b"], c5c⟩
      (List.mem_cons_of_mem _ (List.mem_cons_of_mem _ (List.mem_cons_self _ _)))⟩

/-! ## Claims C1 and C2: the middleware loop of `Router::handle`

`Router::handle` runs `while let Some(middleware) = self.middlewares.iter_mut().next()`:
the iterator is re-created on every loop iteration, so the loop examines the
first middleware of the list forever. If that middleware returns `Next`, the
loop never terminates and no later middleware (nor the controller) is ever
reached. The same pattern is used for the endpoint-scoped list. -/

/-- A stateless middleware that always returns `Next` without touching the
response (e.g. the `AddKrustieHeader`-style examples in the crate docs,
minus the header write). -/
def alwaysNext : Middleware := fun _ res => (.Next, res)

/-- A stateless middleware that always returns `End` without touching the
response. -/
def alwaysEnd : Middleware := fun _ res => (.End, res)

/-- A router whose router-scoped middleware list is `[alwaysNext, alwaysEnd]`. -/
def rC1 : Router := .mk [] [alwaysNext, alwaysEnd] [] none

/-- A router whose router-scoped middleware list is `[alwaysNext]`. -/
def rC2 : Router := .mk [] [alwaysNext] [] none

/-- When the first middleware of the list always returns `Next`, the
code's middleware loop never terminates (it returns `none` at every fuel). -/
theorem middlewareLoop_alwaysNext_diverges (rest : List Middleware) (fuel : Nat)
    (req : Request) (res : Response) :
    middlewareLoop (alwaysNext :: rest) req fuel res = none := by
  induction fuel generalizing res with
  | zero => rfl
  | succ fuel ih => rw [middlewareLoop]; exact ih res

/-- C1 (code bug): with middleware list `[alwaysNext, alwaysEnd]`,
`Router::handle` never returns — the loop re-invokes the first middleware
forever, so the middlewares are NOT invoked one-by-one in registration
order, the second middleware's `End` is never reached, and the chain never
stops; the spec's chain runner (§4.4) on the same list terminates with
`End` after invoking each middleware once. -/
theorem C1_middleware_chain_diverges :
    (∀ (fuel : Nat) (req : Request) (res : Response),
        Router.handle fuel rC1 req res = none) ∧
    (∀ (req : Request) (res : Response),
        run_chain_spec rC1.middlewares req res = (.End, res)) := by
  constructor
  · intro fuel req res
    rw [Router.handle]
    rw [show rC1.middlewares = alwaysNext :: [alwaysEnd] from rfl]
    rw [middlewareLoop_alwaysNext_diverges]
  · intro req res
    rfl

/-- C2 (code bug): `Router::handle` does not terminate for every router
configuration: with a non-empty middleware list whose first middleware
returns `Next` (here `[alwaysNext]`), it returns no result at any fuel. -/
theorem C2_handle_does_not_terminate :
    ∀ (fuel : Nat) (req : Request) (res : Response),
      Router.handle fuel rC2 req res = none := by
  intro fuel req res
  rw [Router.handle]
  rw [show rC2.middlewares = alwaysNext :: [] from rfl]
  rw [middlewareLoop_alwaysNext_diverges]

/-! ## Claim C3: duplicate (method, path) registration -/

/-- Controller of the first C3 endpoint. -/
def cDup1 : Controller := fun _ res => res.status .Ok

/-- Controller of the second (duplicate) C3 endpoint. -/
def cDup2 : Controller := fun _ res => res.status .IAmATeapot

/-- First GET endpoint registered at `/a`. -/
def epDup1 : Endpoint := Endpoint.new .GET cDup1

/-- Second GET endpoint registered at `/a` (same method, same path). -/
def epDup2 : Endpoint := Endpoint.new .GET cDup2

/-- A router that already has a GET endpoint registered at `/a`. -/
def rDup1 : Router := insertLit Router.new ["a"] epDup1

/-- C3 counterexample: registering a second endpoint with the same method at
the same exact path does NOT fail — `use_endpoint` returns `ok` (there is no
`DuplicateRoute` check anywhere in registration), the duplicate IS stored
(the node's endpoint list becomes `[epDup1, epDup2]`), and lookup still
returns the first-registered endpoint. -/
theorem C3_counterexample_duplicate_accepted :
    use_endpoint rDup1 [PathType.Subdirectory "a"] epDup2 =
      .ok (insertLit rDup1 ["a"] epDup2) ∧
    endpointsAtLit (insertLit rDup1 ["a"] epDup2) ["a"] = [epDup1, epDup2] ∧
    route_handler (insertLit rDup1 ["a"] epDup2) ["a"] .GET = some (epDup1, []) :=
  ⟨use_endpoint_eq_insertLit rDup1 ["a"] epDup2, rfl, rfl⟩

/-- C3 (amended): registering a second endpoint whose method equals that of
an endpoint already stored at the exact same path succeeds with no error;
the duplicate is appended after the existing endpoints of that node, and
lookup with that method still returns the first-registered endpoint. -/
theorem C3_amended_duplicate_appended
    (r : Router) (p : List String) (hv : ∀ s ∈ p, PathType.isValidLiteral s)
    (e : Endpoint) (n : Router) (hn : nodeAtLit r p = some n)
    (e0 : Endpoint) (hfind : n.endpoints.find? (fun x => x.is_method e.method) = some e0) :
    use_endpoint r (p.map PathType.Subdirectory) e = .ok (insertLit r p e) ∧
    endpointsAtLit (insertLit r p e) p = n.endpoints ++ [e] ∧
    route_handler (insertLit r p e) p e.method = some (e0, []) := by
  have hnode : endpointsAtLit r p = n.endpoints := by simp [endpointsAtLit, hn]
  refine ⟨use_endpoint_eq_insertLit r p e, ?_, ?_⟩
  · rw [endpointsAtLit_insertLit_self, hnode]
  · have hmap := nodeAtLit_insertLit_self p r e
    obtain ⟨n', hn'⟩ : ∃ n', nodeAtLit (insertLit r p e) p = some n' := by
      cases hx : nodeAtLit (insertLit r p e) p with
      | none => rw [hx] at hmap; exact absurd hmap (by simp)
      | some node => exact ⟨node, rfl⟩
    rw [route_handler, handle_routes_lit p hv _ n' hn' e.method []]
    have hend : n'.endpoints = n.endpoints ++ [e] := by
      rw [hn'] at hmap
      rw [hnode] at hmap
      simpa using hmap
    rw [hend, find?_append_some hfind]
    rfl

/-- Witness for the amended C3 at the concrete duplicate registration. -/
theorem C3_amended_duplicate_appended_witness :
    (∀ s ∈ ["a"], PathType.isValidLiteral s) ∧
    nodeAtLit rDup1 ["a"] = some (Router.mk [epDup1] [] [] none) ∧
    (Router.mk [epDup1] [] [] none).endpoints.find?
      (fun x => x.is_method epDup2.method) = some epDup1 ∧
    (use_endpoint rDup1 (["a"].map PathType.Subdirectory) epDup2 =
        .ok (insertLit rDup1 ["a"] epDup2) ∧
      endpointsAtLit (insertLit rDup1 ["a"] epDup2) ["a"] =
        (Router.mk [epDup1] [] [] none).endpoints ++ [epDup2] ∧
      route_handler (insertLit rDup1 ["a"] epDup2) ["a"] epDup2.method =
        some (epDup1, [])) :=
  ⟨by decide, rfl, rfl,
    C3_amended_duplicate_appended rDup1 ["a"] (by decide) epDup2 _ rfl epDup1 rfl⟩

/-! ## Claim C4: conflicting parameter names at a node -/

/-- Controller of the C4 route registered under `:id`. -/
def cPar1 : Controller := fun _ res => res.status .Ok

/-- Controller of the C4 route registered under `:uid`. -/
def cPar2 : Controller := fun _ res => res.status .Created

/-- Endpoint of the route `/a/:id/x`. -/
def epPar1 : Endpoint := Endpoint.new .GET cPar1

/-- Endpoint of the route `/a/:uid/y`. -/
def epPar2 : Endpoint := Endpoint.new .GET cPar2

/-- Register `/a/:id/x` and then `/a/:uid/y` — two parameter names at the
same trie node. -/
def paramConflictRouter : Except String Router := do
  let r1 ← use_endpoint Router.new
    [PathType.Subdirectory "a", PathType.Parameter "id", PathType.Subdirectory "x"] epPar1
  use_endpoint r1
    [PathType.Subdirectory "a", PathType.Parameter "uid", PathType.Subdirectory "y"] epPar2

/-- C4 counterexample: registering a parameter segment whose name differs
from the stored parameter name is NOT a registration-time error: both
registrations return `ok`, the node under `/a` keeps the first name `id`
(the new name `uid` is silently discarded), and a request for `/a/7/y`
reaches the `:uid` route with the binding recorded under `id`. -/
theorem C4_counterexample_conflicting_names_merged :
    paramConflictRouter.map
        (fun r => (nodeAtLit r ["a"]).map (fun n => n.param_dir.map Prod.fst)) =
      .ok (some (some "id")) ∧
    paramConflictRouter.map (fun r => route_handler r ["a", "7", "y"] .GET) =
      .ok (some (epPar2, [("id", "7")])) :=
  ⟨rfl, rfl⟩

/-- C4 (amended): when a node already has a parameter child, a registration
descending with a parameter segment of ANY name (equal or different) is
silently accepted: it descends into the existing parameter child and keeps
the stored name; consequently whenever such a registration returns a
router, that router's parameter slot still carries the originally stored
name (a node has at most one parameter branch — the `param_dir` slot). -/
theorem C4_amended_param_name_kept
    (r : Router) (old : String) (child : Router) (h : r.param_dir = some (old, child))
    (newName : String) (e : Endpoint) (rest : List PathType) :
    (add_endpoint r e (.Parameter newName :: rest) =
      if rest.isEmpty then
        .ok (r.withParamDir (some (old, child.pushEndpoint e)))
      else
        (add_endpoint child e rest).map (fun c' => r.withParamDir (some (old, c')))) ∧
    (∀ r', add_endpoint r e (.Parameter newName :: rest) = .ok r' →
      r'.param_dir.map Prod.fst = some old) := by
  have heq : add_endpoint r e (.Parameter newName :: rest) =
      if rest.isEmpty then
        .ok (r.withParamDir (some (old, child.pushEndpoint e)))
      else
        (add_endpoint child e rest).map (fun c' => r.withParamDir (some (old, c'))) := by
    rw [add_endpoint, h]
    cases hrest : rest.isEmpty with
    | true => simp
    | false =>
        simp only [Bool.false_eq_true, if_false]
        cases hc : add_endpoint child e rest with
        | error msg => rfl
        | ok c' => rfl
  refine ⟨heq, ?_⟩
  intro r' hr'
  rw [heq] at hr'
  cases hrest : rest.isEmpty with
  | true =>
      rw [hrest, if_pos rfl] at hr'
      have : r.withParamDir (some (old, child.pushEndpoint e)) = r' := by injection hr'
      rw [← this]
      simp
  | false =>
      rw [hrest] at hr'
      simp only [Bool.false_eq_true, if_false] at hr'
      cases hc : add_endpoint child e rest with
      | error msg => rw [hc] at hr'; exact absurd hr' (by simp [Except.map])
      | ok c' =>
          rw [hc] at hr'
          have : r.withParamDir (some (old, c')) = r' := by
            simpa [Except.map] using hr'
          rw [← this]
          simp

/-- Witness for the amended C4 at a concrete node with stored name `id` and
a new registration using name `uid`. -/
theorem C4_amended_param_name_kept_witness :
    (Router.mk [] [] [] (some ("id", Router.new))).param_dir = some ("id", Router.new) ∧
    (add_endpoint (Router.mk [] [] [] (some ("id", Router.new))) epPar2
        [PathType.Parameter "uid", PathType.Subdirectory "y"] =
      if [PathType.Subdirectory "y"].isEmpty then
        .ok ((Router.mk [] [] [] (some ("id", Router.new))).withParamDir
          (some ("id", Router.new.pushEndpoint epPar2)))
      else
        (add_endpoint Router.new epPar2 [PathType.Subdirectory "y"]).map
          (fun c' => (Router.mk [] [] [] (some ("id", Router.new))).withParamDir
            (some ("id", c')))) ∧
    (∀ r', add_endpoint (Router.mk [] [] [] (some ("id", Router.new))) epPar2
        [PathType.Parameter "uid", PathType.Subdirectory "y"] = .ok r' →
      r'.param_dir.map Prod.fst = some "id") :=
  ⟨rfl,
    (C4_amended_param_name_kept (Router.mk [] [] [] (some ("id", Router.new)))
      "id" Router.new rfl "uid" epPar2 [PathType.Subdirectory "y"]).1,
    (C4_amended_param_name_kept (Router.mk [] [] [] (some ("id", Router.new)))
      "id" Router.new rfl "uid" epPar2 [PathType.Subdirectory "y"]).2⟩

/-! ## Claim C6: literal precedence over the parameter branch -/

/-- Controller of the literal route `/users/active`. -/
def cActive : Controller := fun _ res => res.status .Ok

/-- Controller of the parameter route `/users/:id`. -/
def cId : Controller := fun _ res => res.status .Created

/-- A router with both `GET /users/active` (literal) and `GET /users/:id`
(parameter) registered. -/
def usersRouter : Except String Router := do
  let r1 ← use_endpoint Router.new
    [PathType.Subdirectory "users", PathType.Subdirectory "active"] (Endpoint.new .GET cActive)
  use_endpoint r1
    [PathType.Subdirectory "users", PathType.Parameter "id"] (Endpoint.new .GET cId)

/-- A concrete node with both a literal child `active` and a parameter
child `:id`, used by the C6 witness. -/
def rTieBreak : Router :=
  .mk [] [] [("active", .mk [Endpoint.new .GET cActive] [] [] none)]
    (some ("id", .mk [Endpoint.new .GET cId] [] [] none))

/-- C6: at any trie depth, when the node has a literal child whose key
equals the query-stripped segment, lookup descends into the literal child
with unchanged bindings, regardless of any parameter child; and on the
concrete router with `GET /users/active` and `GET /users/:id`,
`GET /users/active` resolves to the literal endpoint with empty bindings
while `GET /users/42` resolves to the parameter endpoint binding
`id := "42"`. -/
theorem C6_literal_precedence :
    (∀ (r : Router) (m : HttpMethod) (params : List (String × String))
        (seg : String) (rest : List String) (c : Router),
        stripQuery seg ≠ "" →
        getSubdir r.subdirs (stripQuery seg) = some c →
        handle_routes r m params (seg :: rest) = handle_routes c m params rest) ∧
    usersRouter.map (fun r => route_handler r ["users", "active"] .GET) =
      .ok (some (Endpoint.new .GET cActive, [])) ∧
    usersRouter.map (fun r => route_handler r ["users", "42"] .GET) =
      .ok (some (Endpoint.new .GET cId, [("id", "42")])) := by
  refine ⟨?_, rfl, rfl⟩
  intro r m params seg rest c hne hget
  rw [handle_routes]
  simp only [if_neg hne, hget]

/-- Witness for the general part of C6 at a node holding both a matching
literal child and a parameter child. -/
theorem C6_literal_precedence_witness :
    stripQuery "active" ≠ "" ∧
    getSubdir rTieBreak.subdirs (stripQuery "active") =
      some (Router.mk [Endpoint.new .GET cActive] [] [] none) ∧
    handle_routes rTieBreak .GET [] ["active"] =
      handle_routes (Router.mk [Endpoint.new .GET cActive] [] [] none) .GET [] [] :=
  ⟨by decide, rfl,
    C6_literal_precedence.1 rTieBreak .GET [] "active" []
      (Router.mk [Endpoint.new .GET cActive] [] [] none) (by decide) rfl⟩

/-! ## Claim C7: unmatched lookups and the NotFound path -/

/-- Controller of the single route of the C7 witness router. -/
def c7a : Controller := fun _ res => res.status .Ok

/-- A router with only `GET /a` registered. -/
def rW7 : Router := insertLit Router.new ["a"] (Endpoint.new .GET c7a)

/-- A concrete response (the fields of `Response::default`, with status Ok
so that the NotFound write is visible). -/
def res0 : Response :=
  { debug_mode := false, http_version := "HTTP/1.1", status_code := .Ok,
    headers := [], body := [] }

/-- A concrete GET request for `/zzz`. -/
def req7 : Request :=
  { request := { method := .GET, uri := "/zzz", version := "HTTP/1.1", path_array := ["zzz"] },
    headers := [], queries := [], params := [], body := .None,
    peer_addr := { ip := [0, 0, 0, 0], port := 0 } }

/-- C7: a path that resolves to a node holding no endpoint of the requested
method yields `none` from lookup, exactly like a path that does not resolve
at all (the same `none` is produced, with no distinction); and whenever the
router middleware phase falls through and lookup returns `none`,
`Router::handle` sets the response status to NotFound and returns `Next`,
invoking no controller. -/
theorem C7_unmatched_is_not_found :
    (∀ (p : List String) (r n : Router) (m : HttpMethod),
        (∀ s ∈ p, PathType.isValidLiteral s) →
        nodeAtLit r p = some n →
        n.endpoints.find? (fun e => e.is_method m) = none →
        route_handler r p m = none) ∧
    (∀ (fuel : Nat) (router : Router) (req : Request) (res resMid : Response),
        middlewareLoop router.middlewares req fuel res = some (.fell resMid) →
        route_handler router req.get_path_array req.get_method = none →
        Router.handle fuel router req res = some (.Next, resMid.status .NotFound, []) ∧
          (resMid.status .NotFound).status_code = .NotFound) := by
  constructor
  · intro p r n m hv hn hf
    rw [route_handler, handle_routes_lit p hv r n hn m [], hf]
    rfl
  · intro fuel router req res resMid h1 h2
    refine ⟨?_, rfl⟩
    rw [Router.handle, h1, h2]

/-- Witness for C7: a wrong-method lookup at a registered path returns
`none`, and a GET for an unregistered path makes `handle` answer
`Next` with status NotFound. -/
theorem C7_unmatched_is_not_found_witness :
    ((∀ s ∈ ["a"], PathType.isValidLiteral s) ∧
      nodeAtLit rW7 ["a"] = some (Router.mk [Endpoint.new .GET c7a] [] [] none) ∧
      (Router.mk [Endpoint.new .GET c7a] [] [] none).endpoints.find?
        (fun e => e.is_method .POST) = none ∧
      route_handler rW7 ["a"] .POST = none) ∧
    (middlewareLoop rW7.middlewares req7 1 res0 = some (.fell res0) ∧
      route_handler rW7 req7.get_path_array req7.get_method = none ∧
      Router.handle 1 rW7 req7 res0 = some (.Next, res0.status .NotFound, []) ∧
      (res0.status .NotFound).status_code = .NotFound) :=
  ⟨⟨by decide, rfl, rfl,
      C7_unmatched_is_not_found.1 ["a"] rW7
        (Router.mk [Endpoint.new .GET c7a] [] [] none) .POST (by decide) rfl rfl⟩,
    ⟨rfl, rfl,
      (C7_unmatched_is_not_found.2 1 rW7 req7 res0 res0 rfl rfl).1,
      (C7_unmatched_is_not_found.2 1 rW7 req7 res0 res0 rfl rfl).2⟩⟩

/-! ## Claim C8: query-string stripping -/

/-- Every parameter value produced by a lookup either was already in the
initial bindings or contains no `'?'` (it is a query-stripped segment). -/
theorem handle_routes_param_values (segs : List String) :
    ∀ (r : Router) (m : HttpMethod) (params : List (String × String))
      (e : Endpoint) (ps : List (String × String)),
      handle_routes r m params segs = some (e, ps) →
      ∀ k v, (k, v) ∈ ps → (k, v) ∈ params ∨ ∀ c ∈ v.data, c ≠ '?' := by
  induction segs with
  | nil =>
      intro r m params e ps h k v hmem
      rw [handle_routes] at h
      cases hf : r.endpoints.find? (fun x => x.is_method m) with
      | none => simp [hf] at h
      | some e' =>
          rw [hf] at h
          left
          have h2 : (e', params) = (e, ps) := by injection h
          have hp : params = ps := congrArg Prod.snd h2
          rw [hp]
          exact hmem
  | cons seg rest ih =>
      intro r m params e ps h k v hmem
      rw [handle_routes] at h
      by_cases hempty : stripQuery seg = ""
      · rw [if_pos hempty] at h
        exact ih r m params e ps h k v hmem
      · rw [if_neg hempty] at h
        cases hg : getSubdir r.subdirs (stripQuery seg) with
        | some c =>
            simp only [hg] at h
            exact ih c m params e ps h k v hmem
        | none =>
            simp only [hg] at h
            cases hp : r.param_dir with
            | none => simp [hp] at h
            | some pr =>
                obtain ⟨name, child⟩ := pr
                simp only [hp] at h
                rcases ih child m (insertParam params name (stripQuery seg)) e ps h k v hmem
                  with h' | h'
                · rcases insertParam_mem h' with h'' | h''
                  · left; exact h''
                  · right
                    have hv : v = stripQuery seg := congrArg Prod.snd h''
                    rw [hv]
                    exact stripQuery_no_query seg
                · right; exact h'

/-- Controller of the `/search` route. -/
def cSearch : Controller := fun _ res => res.status .Ok

/-- A router with only `GET /search` registered (no parameter segments). -/
def searchRouter : Except String Router :=
  use_endpoint Router.new [PathType.Subdirectory "search"] (Endpoint.new .GET cSearch)

/-- Controller of the `/items/:id` route used by the C8/C9 witnesses. -/
def cItems : Controller := fun _ res => res.status .Ok

/-- A router with `GET /items/:id` registered, used by the C8/C9 witnesses. -/
def rItems : Router :=
  .mk [] [] [("items", .mk [] [] []
    (some ("id", .mk [Endpoint.new .GET cItems] [] [] none)))] none

/-- C8: the query suffix of a segment is stripped before any comparison —
lookup of `seg :: rest` equals lookup of `stripQuery seg :: rest`; every
parameter value bound during a lookup started with empty bindings contains
no `'?'`; and concretely `GET /search?q=rust` matches the route registered
as `/search` with empty bindings. -/
theorem C8_query_suffix_stripped :
    (∀ (r : Router) (m : HttpMethod) (params : List (String × String))
        (seg : String) (rest : List String),
        handle_routes r m params (seg :: rest) =
          handle_routes r m params (stripQuery seg :: rest)) ∧
    (∀ (r : Router) (m : HttpMethod) (segs : List String) (e : Endpoint)
        (ps : List (String × String)),
        handle_routes r m [] segs = some (e, ps) →
        ∀ k v, (k, v) ∈ ps → ∀ c ∈ v.data, c ≠ '?') ∧
    searchRouter.map (fun r => route_handler r ["search?q=rust"] .GET) =
      .ok (some (Endpoint.new .GET cSearch, [])) := by
  refine ⟨?_, ?_, rfl⟩
  · intro r m params seg rest
    conv_rhs => rw [handle_routes]
    rw [stripQuery_idem]
    rw [handle_routes]
  · intro r m segs e ps h k v hmem
    rcases handle_routes_param_values segs r m [] e ps h k v hmem with h' | h'
    · exact absurd h' (List.not_mem_nil _)
    · exact h'

/-- Witness for C8: looking up `/items/7?x=1` on a router with
`GET /items/:id` binds `id := "7"`, and the bound value contains no `'?'`. -/
theorem C8_query_suffix_stripped_witness :
    handle_routes rItems .GET [] ["items", "7?x=1"] =
      some (Endpoint.new .GET cItems, [("id", "7")]) ∧
    ¬ ('?' ∈ "7".data) :=
  ⟨rfl, fun hc =>
    C8_query_suffix_stripped.2.1 rItems .GET ["items", "7?x=1"]
      (Endpoint.new .GET cItems) [("id", "7")] rfl "id" "7"
      (List.mem_singleton.mpr rfl) '?' hc rfl⟩

/-! ## Claim C9: parameter injection via a request clone -/

/-- A concrete GET request for `/items/7`. -/
def req9 : Request :=
  { request :=
      { method := .GET, uri := "/items/7", version := "HTTP/1.1", path_array := ["items", "7"] },
    headers := [("host", "localhost")], queries := [], params := [], body := .None,
    peer_addr := { ip := [127, 0, 0, 1], port := 8080 } }

/-- C9: on a matched dispatch, the controller is invoked exactly once, on
the clone of the request whose `params` slot has been replaced by the
bindings produced by lookup; that clone agrees with the original request on
every other field (request line, headers, queries, body, peer address), so
the request value all middleware observed is left untouched by the router
(in this pure embedding, `handle` consumes `request` immutably and passes
the very same value to every middleware). -/
theorem C9_controller_gets_bound_clone
    (fuel : Nat) (router : Router) (req : Request) (res resMid resMid2 : Response)
    (endpoint : Endpoint) (params : List (String × String))
    (h1 : middlewareLoop router.middlewares req fuel res = some (.fell resMid))
    (h2 : route_handler router req.get_path_array req.get_method = some (endpoint, params))
    (h3 : middlewareLoop endpoint.middlewares req fuel resMid = some (.fell resMid2)) :
    Router.handle fuel router req res =
      some (.Next, endpoint.controller (req.add_param params) resMid2,
        [(endpoint.controller, req.add_param params)]) ∧
    (req.add_param params).params = params ∧
    (req.add_param params).request = req.request ∧
    (req.add_param params).headers = req.headers ∧
    (req.add_param params).queries = req.queries ∧
    (req.add_param params).body = req.body ∧
    (req.add_param params).peer_addr = req.peer_addr := by
  refine ⟨?_, rfl, rfl, rfl, rfl, rfl, rfl⟩
  simp only [Router.handle, h1, h2, h3]

/-- Witness for C9: dispatching `GET /items/7` on the `/items/:id` router
invokes the controller once, on the clone of `req9` bound with
`id := "7"`. -/
theorem C9_controller_gets_bound_clone_witness :
    middlewareLoop rItems.middlewares req9 1 res0 = some (.fell res0) ∧
    route_handler rItems req9.get_path_array req9.get_method =
      some (Endpoint.new .GET cItems, [("id", "7")]) ∧
    middlewareLoop (Endpoint.new .GET cItems).middlewares req9 1 res0 =
      some (.fell res0) ∧
    Router.handle 1 rItems req9 res0 =
      some (.Next,
        (Endpoint.new .GET cItems).controller (req9.add_param [("id", "7")]) res0,
        [((Endpoint.new .GET cItems).controller, req9.add_param [("id", "7")])]) ∧
    (req9.add_param [("id", "7")]).params = [("id", "7")] ∧
    (req9.add_param [("id", "7")]).headers = req9.headers :=
  ⟨rfl, rfl, rfl,
    (C9_controller_gets_bound_clone 1 rItems req9 res0 res0 res0
      (Endpoint.new .GET cItems) [("id", "7")] rfl rfl rfl).1,
    (C9_controller_gets_bound_clone 1 rItems req9 res0 res0 res0
      (Endpoint.new .GET cItems) [("id", "7")] rfl rfl rfl).2.1,
    (C9_controller_gets_bound_clone 1 rItems req9 res0 res0 res0
      (Endpoint.new .GET cItems) [("id", "7")] rfl rfl rfl).2.2.2.1⟩

/-! ## Claim C10: empty path segments are skipped -/

/-- C10: a lookup over any path-segment array gives exactly the same result
as over the array with the empty-string segments removed: during lookup an
empty segment is skipped without consuming a trie level or producing a
binding. -/
theorem C10_empty_segments_skipped :
    ∀ (r : Router) (m : HttpMethod) (params : List (String × String))
      (segs : List String),
      handle_routes r m params segs =
        handle_routes r m params (segs.filter (fun s => decide (s ≠ ""))) := by
  intro r m params segs
  induction segs generalizing r params with
  | nil => rfl
  | cons seg rest ih =>
      rw [List.filter_cons]
      by_cases hseg : seg = ""
      · rw [if_neg (by simp [hseg])]
        subst hseg
        rw [handle_routes, if_pos (show stripQuery "" = "" from rfl)]
        exact ih r params
      · rw [if_pos (by simp [hseg])]
        conv_lhs => rw [handle_routes]
        conv_rhs => rw [handle_routes]
        by_cases hstrip : stripQuery seg = ""
        · rw [if_pos hstrip, if_pos hstrip]
          exact ih r params
        · rw [if_neg hstrip, if_neg hstrip]
          cases hg : getSubdir r.subdirs (stripQuery seg) with
          | some c =>
              simp only [hg]
              exact ih c params
          | none =>
              simp only [hg]
              cases hp : r.param_dir with
              | none => rfl
              | some pr =>
                  obtain ⟨name, child⟩ := pr
                  simp only
                  exact ih child (insertParam params name (stripQuery seg))

end Krustie
